import Mathlib

/-!
# JSON-RPC server lifecycle (`rpc/server.go`)

A shallow embedding of the `Server` type of package `rpc`: its constructor,
`OnStart` (with `startHTTPAndHTTPS`, `startWSAndWSS`, `registerApis`,
`newCorsHandler`) and `OnStop` (with `stopHTTP`, `stopWS`).

Conventions of the embedding.

* A Go handle that may be `nil` is an `Option`; `none` is `nil`.
* The two engines (`*gethrpc.Server`) and the four listeners (`net.Listener`)
  are addressed by the name of the `Server` field that holds them.
* Calls into libraries outside the package (`GetAPIs`, `RegisterName`,
  `Listen`) are answered by an environment `Env`; every registration and every
  bind can succeed or fail independently.
* Every statement with an outside effect appends an `Event` to a trace, in
  program order.  A `go func() { Serve(...) }()` statement is the event
  `Serve` (the launch of the serving task).
* A method call through a `nil` receiver in the stop path is recorded in the
  call log with `nilReceiver = true` and ends the run (`panicked = true`).
-/

namespace Rpc

/-- Go `error` values. -/
abbrev Error := String

/-- One `gethrpc.API` entry: the namespace and the service registered under it. -/
structure API where
  Namespace : String
  Service : Nat
  deriving DecidableEq, Repr

/-- The two `*gethrpc.Server` fields of `Server`. -/
inductive EngineSlot where
  | httpServer
  | wsServer
  deriving DecidableEq, Repr

/-- The four `net.Listener` fields of `Server`. -/
inductive ListenerSlot where
  | httpListener
  | wsListener
  | httpsListener
  | wssListener
  deriving DecidableEq, Repr

/-- State of a `gethrpc.Server`: the registered bindings in registration order
and the run flag cleared by `Stop`. -/
structure Engine where
  services : List API
  run : Bool
  deriving DecidableEq, Repr

/-- State of a bound `net.Listener`. -/
structure Listener where
  addr : String
  closed : Bool
  deriving DecidableEq, Repr

/-- The fields of `cors.Options` set by `newCorsHandler`. -/
structure CorsOptions where
  AllowedOrigins : List String
  AllowedMethods : List String
  AllowedHeaders : List String
  MaxAge : Nat
  deriving DecidableEq, Repr

/-- The `http.Handler` values built during start. -/
inductive Handler where
  | rpcServer (e : EngineSlot)
  | cors (opts : CorsOptions) (inner : Handler)
  | websocket (e : EngineSlot) (allowedOrigins : List String)
  deriving DecidableEq, Repr

/-- Effects of `OnStart`, in program order. -/
inductive Event where
  | GetAPIs
  | NewServer (e : EngineSlot)
  | RegisterName (e : EngineSlot) (api : API) (err : Option Error)
  | newCorsHandler (h : Handler)
  | WebsocketHandler (h : Handler)
  | Listen (l : ListenerSlot) (addr : String) (err : Option Error)
  | Serve (l : ListenerSlot) (h : Handler)
  | ServeTLS (l : ListenerSlot) (h : Handler) (certFile keyFile : String)
  deriving DecidableEq, Repr

/-- The `Server` struct (the logger, backend and transport tuning config carry
no behaviour of their own here and are left out). -/
structure Server where
  rpcAddr : String
  wsAddr : String
  rpcHttpsAddr : String
  wssAddr : String
  corsDomain : String
  certFile : String
  keyFile : String
  httpServer : Option Engine
  httpListener : Option Listener
  wsServer : Option Engine
  wsListener : Option Listener
  httpsListener : Option Listener
  wssListener : Option Listener
  unlockedKeys : List String
  deriving DecidableEq, Repr

/-- Answers of the libraries outside the package during one `OnStart`:
the list returned by `rpcapi.GetAPIs`, the error (if any) of a `RegisterName`
call given the engine, its current registrations and the binding, and the
error (if any) of the `Listen` call for each listener field. -/
structure Env where
  apis : List API
  registerErr : EngineSlot → List API → API → Option Error
  listenErr : ListenerSlot → Option Error

/-- Source function `NewServer`: the configuration is stored, every handle is `nil`. -/
def NewServer (rpcAddr wsAddr rpcAddrSecure wsAddrSecure corsDomain certFile keyFile : String)
    (unlockedKeys : List String) : Server :=
  { rpcAddr := rpcAddr
    wsAddr := wsAddr
    corsDomain := corsDomain
    certFile := certFile
    keyFile := keyFile
    unlockedKeys := unlockedKeys
    rpcHttpsAddr := rpcAddrSecure
    wssAddr := wsAddrSecure
    httpServer := none
    httpListener := none
    wsServer := none
    wsListener := none
    httpsListener := none
    wssListener := none }

/-- Library call `gethrpc.NewServer()`: no registrations, running. -/
def newEngine : Engine := { services := [], run := true }

/-- Library call `rpcServer.RegisterName(ns, svc)`: on success the binding is added to the
engine, on failure the engine is left as it was. -/
def RegisterName (env : Env) (slot : EngineSlot) (eng : Engine) (a : API) :
    Engine × Option Error :=
  match env.registerErr slot eng.services a with
  | some err => (eng, some err)
  | none => ({ eng with services := eng.services ++ [a] }, none)

/-- Result of `registerApis`: the engine after the calls, the calls made, the
returned error. -/
structure RegResult where
  engine : Engine
  trace : List Event
  err : Option Error

/-- Source function `registerApis`: the loop over `apis`, returning at the first error. -/
def registerApis (env : Env) (slot : EngineSlot) : Engine → List API → RegResult
  | eng, [] => { engine := eng, trace := [], err := none }
  | eng, a :: rest =>
    match RegisterName env slot eng a with
    | (eng1, some err) =>
      { engine := eng1, trace := [Event.RegisterName slot a (some err)], err := some err }
    | (eng1, none) =>
      let r := registerApis env slot eng1 rest
      { engine := r.engine, trace := Event.RegisterName slot a none :: r.trace, err := r.err }

/-- Split a character list at every occurrence of `sep`; the result always has
one more piece than there are separators. -/
def splitChars (sep : Char) : List Char → List (List Char)
  | [] => [[]]
  | c :: cs =>
    if c = sep then [] :: splitChars sep cs
    else
      match splitChars sep cs with
      | [] => [[c]]
      | piece :: pieces => (c :: piece) :: pieces

/-- Go `strings.Split(s, sep)` for a one-character separator. -/
def stringsSplit (s : String) (sep : Char) : List String :=
  (splitChars sep s.data).map String.mk

/-- Source function `newCorsHandler`. -/
def newCorsHandler (srv : Handler) (allowedOrigins : List String) : Handler :=
  if allowedOrigins.length = 0 then srv
  else
    Handler.cors
      { AllowedOrigins := allowedOrigins
        AllowedMethods := ["POST", "GET"]
        AllowedHeaders := ["*"]
        MaxAge := 600 }
      srv

/-- Library call `tmrpcserver.Listen(addr, cfg)`: a failed bind returns a `nil` listener and
the error, a successful one an open listener. -/
def Listen (env : Env) (slot : ListenerSlot) (addr : String) : Option Listener × Option Error :=
  match env.listenErr slot with
  | some err => (none, some err)
  | none => (some { addr := addr, closed := false }, none)

/-- Result of a start function: the server afterwards, the effects performed,
the returned error. -/
structure StartResult where
  server : Server
  trace : List Event
  err : Option Error

/-- Source function `startHTTPAndHTTPS`. -/
def startHTTPAndHTTPS (env : Env) (server : Server) (apis : List API) : StartResult :=
  let reg := registerApis env EngineSlot.httpServer newEngine apis
  let s1 := { server with httpServer := some reg.engine }
  let t1 := Event.NewServer EngineSlot.httpServer :: reg.trace
  match reg.err with
  | some err => { server := s1, trace := t1, err := some err }
  | none =>
    let allowedOrigins := stringsSplit s1.corsDomain ','
    let handler := newCorsHandler (Handler.rpcServer EngineSlot.httpServer) allowedOrigins
    let t2 := t1 ++ [Event.newCorsHandler handler]
    match Listen env ListenerSlot.httpListener s1.rpcAddr with
    | (l, some err) =>
      { server := { s1 with httpListener := l }
        trace := t2 ++ [Event.Listen ListenerSlot.httpListener s1.rpcAddr (some err)]
        err := some err }
    | (l, none) =>
      let s2 := { s1 with httpListener := l }
      let t3 := t2 ++ [Event.Listen ListenerSlot.httpListener s1.rpcAddr none,
                       Event.Serve ListenerSlot.httpListener handler]
      if s2.rpcHttpsAddr != "off" then
        match Listen env ListenerSlot.httpsListener s2.rpcHttpsAddr with
        | (l2, some err) =>
          { server := { s2 with httpsListener := l2 }
            trace := t3 ++ [Event.Listen ListenerSlot.httpsListener s2.rpcHttpsAddr (some err)]
            err := some err }
        | (l2, none) =>
          { server := { s2 with httpsListener := l2 }
            trace := t3 ++ [Event.Listen ListenerSlot.httpsListener s2.rpcHttpsAddr none,
                            Event.ServeTLS ListenerSlot.httpsListener handler
                              s2.certFile s2.keyFile]
            err := none }
      else { server := s2, trace := t3, err := none }

/-- Source function `startWSAndWSS`. -/
def startWSAndWSS (env : Env) (server : Server) (apis : List API) : StartResult :=
  let reg := registerApis env EngineSlot.wsServer newEngine apis
  let s1 := { server with wsServer := some reg.engine }
  let t1 := Event.NewServer EngineSlot.wsServer :: reg.trace
  match reg.err with
  | some err => { server := s1, trace := t1, err := some err }
  | none =>
    let allowedOrigins := stringsSplit s1.corsDomain ','
    let wsh := Handler.websocket EngineSlot.wsServer allowedOrigins
    let t2 := t1 ++ [Event.WebsocketHandler wsh]
    match Listen env ListenerSlot.wsListener s1.wsAddr with
    | (l, some err) =>
      { server := { s1 with wsListener := l }
        trace := t2 ++ [Event.Listen ListenerSlot.wsListener s1.wsAddr (some err)]
        err := some err }
    | (l, none) =>
      let s2 := { s1 with wsListener := l }
      let t3 := t2 ++ [Event.Listen ListenerSlot.wsListener s1.wsAddr none,
                       Event.Serve ListenerSlot.wsListener wsh]
      if s2.wssAddr != "off" then
        match Listen env ListenerSlot.wssListener s2.wssAddr with
        | (l2, some err) =>
          { server := { s2 with wssListener := l2 }
            trace := t3 ++ [Event.Listen ListenerSlot.wssListener s2.wssAddr (some err)]
            err := some err }
        | (l2, none) =>
          { server := { s2 with wssListener := l2 }
            trace := t3 ++ [Event.Listen ListenerSlot.wssListener s2.wssAddr none,
                            Event.ServeTLS ListenerSlot.wssListener wsh
                              s2.certFile s2.keyFile]
            err := none }
      else { server := s2, trace := t3, err := none }

/-- Source function `OnStart`. -/
def OnStart (env : Env) (server : Server) : StartResult :=
  let apis := env.apis
  let r1 := startHTTPAndHTTPS env server apis
  match r1.err with
  | some err => { server := r1.server, trace := Event.GetAPIs :: r1.trace, err := some err }
  | none =>
    let r2 := startWSAndWSS env r1.server apis
    { server := r2.server, trace := Event.GetAPIs :: (r1.trace ++ r2.trace), err := r2.err }

/-- A method call made by the stop path, with whether its receiver was `nil`. -/
inductive StopCall where
  | Stop (e : EngineSlot) (nilReceiver : Bool)
  | Close (l : ListenerSlot) (nilReceiver : Bool)
  deriving DecidableEq, Repr

/-- Result of a stop function: the server afterwards (at the point of the
panic, if there was one), the calls made, whether a `nil` receiver was hit. -/
structure StopResult where
  server : Server
  calls : List StopCall
  panicked : Bool
  deriving DecidableEq, Repr

/-- Library call `gethrpc.Server.Stop`: clears the run flag; stopping a stopped engine
changes nothing. -/
def Engine.Stop (e : Engine) : Engine := { e with run := false }

/-- Library call `net.Listener.Close`: the listener is closed afterwards; closing a closed
listener returns an error, which the caller discards. -/
def Listener.Close (l : Listener) : Listener := { l with closed := true }

/-- The statement `server.httpServer.Stop()`. -/
def callHttpServerStop (s : Server) : StopResult :=
  match s.httpServer with
  | none =>
    { server := s, calls := [StopCall.Stop EngineSlot.httpServer true], panicked := true }
  | some e =>
    { server := { s with httpServer := some e.Stop }
      calls := [StopCall.Stop EngineSlot.httpServer false]
      panicked := false }

/-- The statement `_ = server.httpListener.Close()`. -/
def callHttpListenerClose (s : Server) : StopResult :=
  match s.httpListener with
  | none =>
    { server := s, calls := [StopCall.Close ListenerSlot.httpListener true], panicked := true }
  | some l =>
    { server := { s with httpListener := some l.Close }
      calls := [StopCall.Close ListenerSlot.httpListener false]
      panicked := false }

/-- Run `next` after `r` unless `r` panicked. -/
def StopResult.andThen (r : StopResult) (next : Server → StopResult) : StopResult :=
  if r.panicked then r
  else
    let r2 := next r.server
    { server := r2.server, calls := r.calls ++ r2.calls, panicked := r2.panicked }

/-- A guard that is false: nothing is called. -/
def skip (s : Server) : StopResult := { server := s, calls := [], panicked := false }

/-- Source function `stopHTTP`. -/
def stopHTTP (server : Server) : StopResult :=
  (if server.httpServer ≠ none then callHttpServerStop server else skip server).andThen
    fun s => if s.httpListener ≠ none then callHttpListenerClose s else skip s

/-- Source function `stopWS`: both guards test the `ws` handle, both calls go to the `http`
handle, as in the source. -/
def stopWS (server : Server) : StopResult :=
  (if server.wsServer ≠ none then callHttpServerStop server else skip server).andThen
    fun s => if s.wsListener ≠ none then callHttpListenerClose s else skip s

/-- Source function `OnStop`. -/
def OnStop (server : Server) : StopResult :=
  (stopHTTP server).andThen stopWS

/-- A lifecycle call on a `Server`. -/
inductive Call where
  | OnStart (env : Env)
  | OnStop

/-- Run a sequence of lifecycle calls; `none` when an `OnStop` in it panicked. -/
def runCalls : Server → List Call → Option Server
  | s, [] => some s
  | s, Call.OnStart env :: rest => runCalls (OnStart env s).server rest
  | s, Call.OnStop :: rest =>
    if (OnStop s).panicked then none else runCalls (OnStop s).server rest

/-- An environment in which every registration and every bind succeeds. -/
def envOk (apis : List API) : Env :=
  { apis := apis, registerErr := fun _ _ _ => none, listenErr := fun _ => none }

/-- The server of the scenario with both TLS addresses off. -/
def plainServer : Server :=
  NewServer "tcp://:8545" "tcp://:8546" "off" "off" "" "" "" []

/-- An environment in which the bind of the plain request listener fails and
everything else succeeds. -/
def envHttpBindFails (apis : List API) : Env :=
  { apis := apis
    registerErr := fun _ _ _ => none
    listenErr := fun l =>
      if l = ListenerSlot.httpListener then some "listen tcp :8545: bind: address already in use"
      else none }

/-- An environment in which the binding "net" is rejected by either engine and
everything else succeeds. -/
def envRejectsNet (apis : List API) : Env :=
  { apis := apis
    registerErr := fun _ _ a => if a.Namespace = "net" then some "invalid service net" else none
    listenErr := fun _ => none }

/-- An environment in which the bind of the plain persistent listener fails and
everything else succeeds. -/
def envWsBindFails (apis : List API) : Env :=
  { apis := apis
    registerErr := fun _ _ _ => none
    listenErr := fun l =>
      if l = ListenerSlot.wsListener then some "listen tcp :8546: bind: permission denied"
      else none }

/-- The plain server after one successful `OnStart`. -/
def startedServer : Server := (OnStart (envOk [⟨"eth", 1⟩]) plainServer).server

/-- The plain server after a successful `OnStart` followed by an `OnStart` whose
plain request bind fails. -/
def restartedServer : Server := (OnStart (envHttpBindFails [⟨"eth", 1⟩]) startedServer).server

/-- The stages of a start, as the specification lists them. -/
inductive Stage where
  | registerHTTP
  | bindHTTP
  | bindHTTPS
  | registerWS
  | bindWS
  | bindWSS
  deriving DecidableEq, Repr

/-- The fixed stage order of the specification: a TLS bind is a stage only
when its address is not "off". -/
def stagePlan (s : Server) : List Stage :=
  [Stage.registerHTTP, Stage.bindHTTP] ++ (if s.rpcHttpsAddr = "off" then [] else [Stage.bindHTTPS])
    ++ [Stage.registerWS, Stage.bindWS] ++ (if s.wssAddr = "off" then [] else [Stage.bindWSS])

/-- The error of the first rejected binding when `l` is registered in list
order into an engine that already holds `regs`; `none` when all are accepted. -/
def firstRegisterErr (env : Env) (slot : EngineSlot) : List API → List API → Option Error
  | _, [] => none
  | regs, a :: rest =>
    match env.registerErr slot regs a with
    | some err => some err
    | none => firstRegisterErr env slot (regs ++ [a]) rest

/-- The registration calls up to and including the first rejected one. -/
def registerEvents (env : Env) (slot : EngineSlot) : List API → List API → List Event
  | _, [] => []
  | regs, a :: rest =>
    match env.registerErr slot regs a with
    | some err => [Event.RegisterName slot a (some err)]
    | none => Event.RegisterName slot a none :: registerEvents env slot (regs ++ [a]) rest

/-- The handler of the request family. -/
def httpHandler (s : Server) : Handler :=
  newCorsHandler (Handler.rpcServer EngineSlot.httpServer) (stringsSplit s.corsDomain ',')

/-- The handler of the persistent-connection family. -/
def wsHandler (s : Server) : Handler :=
  Handler.websocket EngineSlot.wsServer (stringsSplit s.corsDomain ',')

/-- The outcome of a stage taken alone. -/
def stageErr (env : Env) : Stage → Option Error
  | Stage.registerHTTP => firstRegisterErr env EngineSlot.httpServer [] env.apis
  | Stage.bindHTTP => env.listenErr ListenerSlot.httpListener
  | Stage.bindHTTPS => env.listenErr ListenerSlot.httpsListener
  | Stage.registerWS => firstRegisterErr env EngineSlot.wsServer [] env.apis
  | Stage.bindWS => env.listenErr ListenerSlot.wsListener
  | Stage.bindWSS => env.listenErr ListenerSlot.wssListener

/-- The events of a bind stage: the bind, and the launch of the serving task
when the bind succeeded. -/
def bindEvents (env : Env) (l : ListenerSlot) (addr : String) (serve : Event) : List Event :=
  match env.listenErr l with
  | some err => [Event.Listen l addr (some err)]
  | none => [Event.Listen l addr none, serve]

/-- The events of a register stage: the engine is created, the bindings are
registered up to the first rejection, and the handler is built when all were
accepted. -/
def registerStageEvents (env : Env) (slot : EngineSlot) (handlerBuilt : Event) : List Event :=
  Event.NewServer slot :: registerEvents env slot [] env.apis ++
    (match firstRegisterErr env slot [] env.apis with
     | some _ => []
     | none => [handlerBuilt])

/-- The events of a stage taken alone. -/
def stageEvents (env : Env) (s : Server) : Stage → List Event
  | Stage.registerHTTP =>
    registerStageEvents env EngineSlot.httpServer (Event.newCorsHandler (httpHandler s))
  | Stage.bindHTTP =>
    bindEvents env ListenerSlot.httpListener s.rpcAddr
      (Event.Serve ListenerSlot.httpListener (httpHandler s))
  | Stage.bindHTTPS =>
    bindEvents env ListenerSlot.httpsListener s.rpcHttpsAddr
      (Event.ServeTLS ListenerSlot.httpsListener (httpHandler s) s.certFile s.keyFile)
  | Stage.registerWS =>
    registerStageEvents env EngineSlot.wsServer (Event.WebsocketHandler (wsHandler s))
  | Stage.bindWS =>
    bindEvents env ListenerSlot.wsListener s.wsAddr
      (Event.Serve ListenerSlot.wsListener (wsHandler s))
  | Stage.bindWSS =>
    bindEvents env ListenerSlot.wssListener s.wssAddr
      (Event.ServeTLS ListenerSlot.wssListener (wsHandler s) s.certFile s.keyFile)

/-- Run a list of stages in order, stopping after the first one that fails. -/
def runPlan (env : Env) (s : Server) : List Stage → List Event × Option Error
  | [] => ([], none)
  | st :: rest =>
    match stageErr env st with
    | some err => (stageEvents env s st, some err)
    | none => (stageEvents env s st ++ (runPlan env s rest).1, (runPlan env s rest).2)

/-- Every binding of `l`, registered in list order into an engine that already
holds `regs`, is accepted. -/
def AllRegister (env : Env) (slot : EngineSlot) (regs l : List API) : Prop :=
  ∀ pre b post, l = pre ++ b :: post → env.registerErr slot (regs ++ pre) b = none

/-- The `RegisterName` events of a run of successful registrations. -/
def okEvents (slot : EngineSlot) (l : List API) : List Event :=
  l.map fun a => Event.RegisterName slot a none

/-- Number of listener handles of the server that are not nil. -/
def boundListeners (s : Server) : Nat :=
  ([s.httpListener, s.wsListener, s.httpsListener, s.wssListener].filter Option.isSome).length

/-- The server with both TLS addresses set. -/
def tlsServer : Server :=
  NewServer "tcp://:8545" "tcp://:8546" "tcp://:9545" "tcp://:9546" "" "cert.pem" "key.pem" []

/-- The engine behind a handler. -/
def Handler.engine : Handler → EngineSlot
  | Handler.rpcServer e => e
  | Handler.cors _ inner => inner.engine
  | Handler.websocket e _ => e

/-- The handler a serving task is launched with. -/
def Event.handler : Event → Option Handler
  | Event.Serve _ h => some h
  | Event.ServeTLS _ h _ _ => some h
  | _ => none

/-- The engine a serving task is launched with; `none` for other events. -/
def Event.servedEngine (e : Event) : Option EngineSlot :=
  e.handler.map Handler.engine

/-- Whether the event is a `RegisterName` call on the engine `fam`. -/
def Event.isRegister (fam : EngineSlot) : Event → Bool
  | Event.RegisterName e _ _ => decide (e = fam)
  | _ => false

/-- The event that builds the handler `h` of the family `fam`. -/
def handlerBuilt : EngineSlot → Handler → Event
  | EngineSlot.httpServer, h => Event.newCorsHandler h
  | EngineSlot.wsServer, h => Event.WebsocketHandler h

/-- Whether the event builds the handler of the family `fam`. -/
def Event.isHandlerBuilt (fam : EngineSlot) : Event → Bool
  | Event.newCorsHandler _ => decide (fam = EngineSlot.httpServer)
  | Event.WebsocketHandler _ => decide (fam = EngineSlot.wsServer)
  | _ => false

/-- A stretch of the trace without any event of the family `fam`. -/
def Quiet (fam : EngineSlot) (t : List Event) : Prop :=
  ∀ e ∈ t, e.isRegister fam = false ∧ e.isHandlerBuilt fam = false ∧ e.servedEngine ≠ some fam

/-- A trace in which the family `fam` either never serves, or is set up in a
first part `A` and serves only in the rest. -/
def SetUpThenServe (fam : EngineSlot) (apis : List API) (t : List Event) : Prop :=
  (∀ e ∈ t, e.servedEngine ≠ some fam) ∨
  ∃ A rest h, t = A ++ rest ∧ (∀ e ∈ A, e.servedEngine ≠ some fam) ∧
    A.filter (Event.isRegister fam) = okEvents fam apis ∧ handlerBuilt fam h ∈ A ∧
    ∀ e ∈ rest, e.isRegister fam = false ∧ e.isHandlerBuilt fam = false ∧
      (e.servedEngine = some fam → e.handler = some h)

theorem AllRegister.head {env : Env} {slot : EngineSlot} {regs : List API} {a : API}
    {rest : List API} (h : AllRegister env slot regs (a :: rest)) :
    env.registerErr slot regs a = none := by
  have := h [] a rest rfl
  simpa using this

theorem AllRegister.tail {env : Env} {slot : EngineSlot} {regs : List API} {a : API}
    {rest : List API} (h : AllRegister env slot regs (a :: rest)) :
    AllRegister env slot (regs ++ [a]) rest := by
  intro pre b post hl
  have := h (a :: pre) b post (by simp [hl])
  simpa using this

theorem registerApis_ok (env : Env) (slot : EngineSlot) (apis : List API) :
    ∀ eng : Engine, AllRegister env slot eng.services apis →
      registerApis env slot eng apis =
        { engine := { eng with services := eng.services ++ apis }
          trace := okEvents slot apis
          err := none } := by
  induction apis with
  | nil => intro eng _; simp [registerApis, okEvents]
  | cons a rest ih =>
    intro eng h
    have h1 := h.head
    have h2 := ih { eng with services := eng.services ++ [a] } h.tail
    simp [registerApis, RegisterName, h1, h2, okEvents]

theorem registerApis_fail (env : Env) (slot : EngineSlot) (pre : List API) (a : API)
    (post : List API) (err : Error) :
    ∀ eng : Engine, AllRegister env slot eng.services pre →
      env.registerErr slot (eng.services ++ pre) a = some err →
      registerApis env slot eng (pre ++ a :: post) =
        { engine := { eng with services := eng.services ++ pre }
          trace := okEvents slot pre ++ [Event.RegisterName slot a (some err)]
          err := some err } := by
  induction pre with
  | nil =>
    intro eng _ hf
    simp at hf
    simp [registerApis, RegisterName, hf, okEvents]
  | cons b rest ih =>
    intro eng h hf
    have h1 := h.head
    have h2 := ih { eng with services := eng.services ++ [b] } h.tail (by simpa using hf)
    simp [registerApis, RegisterName, h1, h2, okEvents]

/-- Either every binding is accepted, or there is a first rejected one. -/
theorem allRegister_or_first_failure (env : Env) (slot : EngineSlot) (apis : List API) :
    ∀ regs : List API, AllRegister env slot regs apis ∨
      ∃ pre a post err, apis = pre ++ a :: post ∧ AllRegister env slot regs pre ∧
        env.registerErr slot (regs ++ pre) a = some err := by
  induction apis with
  | nil =>
    intro regs
    left
    intro pre b post h
    simp at h
  | cons a rest ih =>
    intro regs
    cases hA : env.registerErr slot regs a with
    | some err =>
      right
      refine ⟨[], a, rest, err, rfl, ?_, by simpa using hA⟩
      intro pre b post h
      simp at h
    | none =>
      rcases ih (regs ++ [a]) with h | ⟨pre, b, post, err, hl, hpre, hf⟩
      · left
        intro pre b post h
        cases pre with
        | nil =>
          simp at h
          obtain ⟨rfl, -⟩ := h
          simpa using hA
        | cons c pre2 =>
          simp at h
          obtain ⟨rfl, h⟩ := h
          have := ‹AllRegister env slot (regs ++ [a]) rest› pre2 b post h
          simpa using this
      · right
        refine ⟨a :: pre, b, post, err, by simp [hl], ?_, by simpa using hf⟩
        intro pre3 c post3 h
        cases pre3 with
        | nil =>
          simp at h
          obtain ⟨rfl, -⟩ := h
          simpa using hA
        | cons d pre4 =>
          simp at h
          obtain ⟨rfl, h⟩ := h
          have := hpre pre4 c post3 h
          simpa using this

theorem registerApis_trace (env : Env) (slot : EngineSlot) (apis : List API) :
    ∀ eng : Engine,
      (registerApis env slot eng apis).trace = registerEvents env slot eng.services apis := by
  induction apis with
  | nil => intro eng; rfl
  | cons a rest ih =>
    intro eng
    cases h : env.registerErr slot eng.services a with
    | some err => simp [registerApis, RegisterName, registerEvents, h]
    | none =>
      have := ih { eng with services := eng.services ++ [a] }
      simp [registerApis, RegisterName, registerEvents, h, this]

theorem registerApis_err (env : Env) (slot : EngineSlot) (apis : List API) :
    ∀ eng : Engine,
      (registerApis env slot eng apis).err = firstRegisterErr env slot eng.services apis := by
  induction apis with
  | nil => intro eng; rfl
  | cons a rest ih =>
    intro eng
    cases h : env.registerErr slot eng.services a with
    | some err => simp [registerApis, RegisterName, firstRegisterErr, h]
    | none =>
      have := ih { eng with services := eng.services ++ [a] }
      simp [registerApis, RegisterName, firstRegisterErr, h, this]

theorem runPlan_ok (env : Env) (s : Server) (l : List Stage)
    (h : ∀ st ∈ l, stageErr env st = none) :
    runPlan env s l = (l.flatMap (stageEvents env s), none) := by
  induction l with
  | nil => rfl
  | cons st rest ih =>
    have h1 : stageErr env st = none := h st (by simp)
    have h2 := ih (fun x hx => h x (by simp [hx]))
    simp [runPlan, h1, h2]

theorem runPlan_fail (env : Env) (s : Server) (pre : List Stage) (st : Stage)
    (post : List Stage) (err : Error)
    (h : ∀ x ∈ pre, stageErr env x = none) (hf : stageErr env st = some err) :
    runPlan env s (pre ++ st :: post) =
      (pre.flatMap (stageEvents env s) ++ stageEvents env s st, some err) := by
  induction pre with
  | nil => simp [runPlan, hf]
  | cons x rest ih =>
    have h1 : stageErr env x = none := h x (by simp)
    have h2 := ih (fun y hy => h y (by simp [hy]))
    simp [runPlan, h1, h2]

theorem runPlan_err_none_iff (env : Env) (s : Server) (l : List Stage) :
    (runPlan env s l).2 = none ↔ ∀ st ∈ l, stageErr env st = none := by
  induction l with
  | nil => simp [runPlan]
  | cons st rest ih =>
    cases h : stageErr env st with
    | some err => simp [runPlan, h]
    | none => simp [runPlan, h, ih]

theorem OnStart_eq_runPlan (env : Env) (s : Server) :
    (OnStart env s).trace = Event.GetAPIs :: (runPlan env s (stagePlan s)).1 ∧
    (OnStart env s).err = (runPlan env s (stagePlan s)).2 := by
  simp only [OnStart, startHTTPAndHTTPS, startWSAndWSS, registerApis_trace, registerApis_err,
    Listen, newEngine, stagePlan]
  cases h1 : firstRegisterErr env EngineSlot.httpServer [] env.apis <;>
  cases h2 : env.listenErr ListenerSlot.httpListener <;>
  cases h3 : env.listenErr ListenerSlot.httpsListener <;>
  cases h4 : firstRegisterErr env EngineSlot.wsServer [] env.apis <;>
  cases h5 : env.listenErr ListenerSlot.wsListener <;>
  cases h6 : env.listenErr ListenerSlot.wssListener <;>
  by_cases ha : s.rpcHttpsAddr = "off" <;>
  by_cases hb : s.wssAddr = "off" <;>
  simp [runPlan, stageErr, stageEvents, registerStageEvents, bindEvents, httpHandler, wsHandler,
    h1, h2, h3, h4, h5, h6, ha, hb]


theorem firstRegisterErr_congr (env : Env) (s1 s2 : EngineSlot)
    (h : ∀ regs a, env.registerErr s1 regs a = env.registerErr s2 regs a) (l : List API) :
    ∀ regs, firstRegisterErr env s1 regs l = firstRegisterErr env s2 regs l := by
  induction l with
  | nil => intro regs; rfl
  | cons a rest ih =>
    intro regs
    simp [firstRegisterErr, h regs a, ih (regs ++ [a])]

theorem allRegister_of_firstRegisterErr (env : Env) (slot : EngineSlot) (eng : Engine)
    (apis : List API) (h : firstRegisterErr env slot eng.services apis = none) :
    AllRegister env slot eng.services apis := by
  rcases allRegister_or_first_failure env slot apis eng.services with hall | ⟨pre, a, post, err, hl, hpre, hf⟩
  · exact hall
  · have h1 := registerApis_fail env slot pre a post err eng hpre hf
    have h2 := registerApis_err env slot apis eng
    rw [hl, h1] at h2
    rw [hl] at h
    simp [h] at h2

theorem registerApis_engine (env : Env) (slot : EngineSlot) (eng : Engine) (apis : List API)
    (h : firstRegisterErr env slot eng.services apis = none) :
    (registerApis env slot eng apis).engine = { eng with services := eng.services ++ apis } := by
  rw [registerApis_ok env slot apis eng (allRegister_of_firstRegisterErr env slot eng apis h)]

theorem getAPIs_not_mem_registerEvents (env : Env) (slot : EngineSlot) (l : List API) :
    ∀ regs, Event.GetAPIs ∉ registerEvents env slot regs l := by
  induction l with
  | nil => intro regs; simp [registerEvents]
  | cons a rest ih =>
    intro regs
    cases h : env.registerErr slot regs a with
    | some err => simp [registerEvents, h]
    | none => simp [registerEvents, h, ih]

theorem getAPIs_not_mem_stageEvents (env : Env) (s : Server) (st : Stage) :
    Event.GetAPIs ∉ stageEvents env s st := by
  cases st <;>
    simp only [stageEvents, registerStageEvents, bindEvents] <;>
    split <;> simp [getAPIs_not_mem_registerEvents]

theorem getAPIs_not_mem_runPlan (env : Env) (s : Server) (l : List Stage) :
    Event.GetAPIs ∉ (runPlan env s l).1 := by
  induction l with
  | nil => simp [runPlan]
  | cons st rest ih =>
    cases h : stageErr env st with
    | some err => simp [runPlan, h, getAPIs_not_mem_stageEvents]
    | none => simp [runPlan, h, getAPIs_not_mem_stageEvents, ih]

/-- C7: `registerApis` registers the bindings in list order. If every binding is
accepted it returns nil, the engine holds all of them after its earlier
registrations, and every binding was attempted once, in order. Otherwise it
returns the error of the first rejected binding, the engine keeps every binding
before that one, and the attempted calls end with the rejected one. One of the
two cases always applies. -/
theorem registerApis_first_failure (env : Env) (slot : EngineSlot) (eng : Engine)
    (apis : List API) :
    (AllRegister env slot eng.services apis →
      registerApis env slot eng apis =
        { engine := { eng with services := eng.services ++ apis }
          trace := okEvents slot apis
          err := none }) ∧
    (∀ pre a post err, apis = pre ++ a :: post → AllRegister env slot eng.services pre →
      env.registerErr slot (eng.services ++ pre) a = some err →
      registerApis env slot eng apis =
        { engine := { eng with services := eng.services ++ pre }
          trace := okEvents slot pre ++ [Event.RegisterName slot a (some err)]
          err := some err }) ∧
    (AllRegister env slot eng.services apis ∨
      ∃ pre a post err, apis = pre ++ a :: post ∧ AllRegister env slot eng.services pre ∧
        env.registerErr slot (eng.services ++ pre) a = some err) := by
  refine ⟨registerApis_ok env slot apis eng, ?_, allRegister_or_first_failure env slot apis _⟩
  intro pre a post err hl hpre hf
  rw [hl]
  exact registerApis_fail env slot pre a post err eng hpre hf

theorem registerApis_first_failure_witness :
    registerApis (envRejectsNet []) EngineSlot.httpServer newEngine
        [⟨"eth", 1⟩, ⟨"net", 2⟩, ⟨"web3", 3⟩] =
      { engine := { services := [⟨"eth", 1⟩], run := true }
        trace := [Event.RegisterName EngineSlot.httpServer ⟨"eth", 1⟩ none,
          Event.RegisterName EngineSlot.httpServer ⟨"net", 2⟩ (some "invalid service net")]
        err := some "invalid service net" } :=
  (registerApis_first_failure (envRejectsNet []) EngineSlot.httpServer newEngine
      [⟨"eth", 1⟩, ⟨"net", 2⟩, ⟨"web3", 3⟩]).2.1 [⟨"eth", 1⟩] ⟨"net", 2⟩ [⟨"web3", 3⟩]
    "invalid service net" rfl
    (allRegister_of_firstRegisterErr (envRejectsNet []) EngineSlot.httpServer newEngine
      [⟨"eth", 1⟩] (by decide))
    (by decide)

/-- C5: `OnStart` runs the stages of `stagePlan` in that order. It returns nil
exactly when every stage succeeds, and then its effects are the fetch of the
binding list followed by the events of every stage; when a stage fails after
all earlier ones succeeded, `OnStart` returns the error of that stage and its effects
end with the events of that stage, so nothing of a later stage is performed.
A TLS bind is handled like any other stage. -/
theorem OnStart_stage_order (env : Env) (s : Server) :
    ((OnStart env s).err = none ↔ ∀ st ∈ stagePlan s, stageErr env st = none) ∧
    ((∀ st ∈ stagePlan s, stageErr env st = none) →
      (OnStart env s).trace = Event.GetAPIs :: (stagePlan s).flatMap (stageEvents env s)) ∧
    (∀ pre st post err, stagePlan s = pre ++ st :: post →
      (∀ x ∈ pre, stageErr env x = none) → stageErr env st = some err →
      (OnStart env s).err = some err ∧
      (OnStart env s).trace =
        Event.GetAPIs :: (pre.flatMap (stageEvents env s) ++ stageEvents env s st)) := by
  obtain ⟨ht, he⟩ := OnStart_eq_runPlan env s
  refine ⟨?_, ?_, ?_⟩
  · rw [he]
    exact runPlan_err_none_iff env s _
  · intro h
    rw [ht, runPlan_ok env s _ h]
  · intro pre st post err hl hpre hf
    rw [ht, he, hl, runPlan_fail env s pre st post err hpre hf]
    exact ⟨rfl, rfl⟩

theorem OnStart_stage_order_witness :
    stagePlan plainServer =
      [Stage.registerHTTP, Stage.bindHTTP, Stage.registerWS] ++ Stage.bindWS :: [] ∧
    (OnStart (envWsBindFails [⟨"eth", 1⟩]) plainServer).err =
      some "listen tcp :8546: bind: permission denied" ∧
    (OnStart (envWsBindFails [⟨"eth", 1⟩]) plainServer).trace =
      Event.GetAPIs ::
        ([Stage.registerHTTP, Stage.bindHTTP, Stage.registerWS].flatMap
            (stageEvents (envWsBindFails [⟨"eth", 1⟩]) plainServer) ++
          stageEvents (envWsBindFails [⟨"eth", 1⟩]) plainServer Stage.bindWS) :=
  ⟨by decide,
    (OnStart_stage_order (envWsBindFails [⟨"eth", 1⟩]) plainServer).2.2
      [Stage.registerHTTP, Stage.bindHTTP, Stage.registerWS] Stage.bindWS []
      "listen tcp :8546: bind: permission denied" (by decide) (by decide) (by decide)⟩

theorem startHTTPAndHTTPS_err (env : Env) (s : Server) (apis : List API) :
    (startHTTPAndHTTPS env s apis).err =
      match firstRegisterErr env EngineSlot.httpServer [] apis with
      | some err => some err
      | none =>
        match env.listenErr ListenerSlot.httpListener with
        | some err => some err
        | none => if s.rpcHttpsAddr = "off" then none else env.listenErr ListenerSlot.httpsListener := by
  simp only [startHTTPAndHTTPS, registerApis_err, Listen, newEngine]
  cases h1 : firstRegisterErr env EngineSlot.httpServer [] apis <;>
  cases h2 : env.listenErr ListenerSlot.httpListener <;>
  cases h3 : env.listenErr ListenerSlot.httpsListener <;>
  by_cases ha : s.rpcHttpsAddr = "off" <;>
  simp [h1, h2, h3, ha]

theorem startWSAndWSS_err (env : Env) (s : Server) (apis : List API) :
    (startWSAndWSS env s apis).err =
      match firstRegisterErr env EngineSlot.wsServer [] apis with
      | some err => some err
      | none =>
        match env.listenErr ListenerSlot.wsListener with
        | some err => some err
        | none => if s.wssAddr = "off" then none else env.listenErr ListenerSlot.wssListener := by
  simp only [startWSAndWSS, registerApis_err, Listen, newEngine]
  cases h1 : firstRegisterErr env EngineSlot.wsServer [] apis <;>
  cases h2 : env.listenErr ListenerSlot.wsListener <;>
  cases h3 : env.listenErr ListenerSlot.wssListener <;>
  by_cases ha : s.wssAddr = "off" <;>
  simp [h1, h2, h3, ha]

theorem startHTTPAndHTTPS_server (env : Env) (s : Server) (apis : List API)
    (h : (startHTTPAndHTTPS env s apis).err = none) :
    (startHTTPAndHTTPS env s apis).server =
      { s with
        httpServer := some { services := apis, run := true }
        httpListener := some { addr := s.rpcAddr, closed := false }
        httpsListener :=
          if s.rpcHttpsAddr = "off" then s.httpsListener
          else some { addr := s.rpcHttpsAddr, closed := false } } := by
  rw [startHTTPAndHTTPS_err] at h
  cases h1 : firstRegisterErr env EngineSlot.httpServer [] apis with
  | some err => simp [h1] at h
  | none =>
    have he := registerApis_engine env EngineSlot.httpServer newEngine apis h1
    simp only [newEngine, List.nil_append] at he
    cases h2 : env.listenErr ListenerSlot.httpListener with
    | some err => simp [h1, h2] at h
    | none =>
      by_cases ha : s.rpcHttpsAddr = "off"
      · simp [startHTTPAndHTTPS, registerApis_err, Listen, h1, h2, ha, he, newEngine]
      · simp [h1, h2, ha] at h
        simp [startHTTPAndHTTPS, registerApis_err, Listen, h1, h2, ha, he, newEngine, h]

theorem startWSAndWSS_server (env : Env) (s : Server) (apis : List API)
    (h : (startWSAndWSS env s apis).err = none) :
    (startWSAndWSS env s apis).server =
      { s with
        wsServer := some { services := apis, run := true }
        wsListener := some { addr := s.wsAddr, closed := false }
        wssListener :=
          if s.wssAddr = "off" then s.wssListener
          else some { addr := s.wssAddr, closed := false } } := by
  rw [startWSAndWSS_err] at h
  cases h1 : firstRegisterErr env EngineSlot.wsServer [] apis with
  | some err => simp [h1] at h
  | none =>
    have he := registerApis_engine env EngineSlot.wsServer newEngine apis h1
    simp only [newEngine, List.nil_append] at he
    cases h2 : env.listenErr ListenerSlot.wsListener with
    | some err => simp [h1, h2] at h
    | none =>
      by_cases ha : s.wssAddr = "off"
      · simp [startWSAndWSS, registerApis_err, Listen, h1, h2, ha, he, newEngine]
      · simp [h1, h2, ha] at h
        simp [startWSAndWSS, registerApis_err, Listen, h1, h2, ha, he, newEngine, h]

theorem OnStart_server_of_success (env : Env) (s : Server) (h : (OnStart env s).err = none) :
    (OnStart env s).server =
      { s with
        httpServer := some { services := env.apis, run := true }
        httpListener := some { addr := s.rpcAddr, closed := false }
        httpsListener :=
          if s.rpcHttpsAddr = "off" then s.httpsListener
          else some { addr := s.rpcHttpsAddr, closed := false }
        wsServer := some { services := env.apis, run := true }
        wsListener := some { addr := s.wsAddr, closed := false }
        wssListener :=
          if s.wssAddr = "off" then s.wssListener
          else some { addr := s.wssAddr, closed := false } } := by
  cases h1 : (startHTTPAndHTTPS env s env.apis).err with
  | some err => simp [OnStart, h1] at h
  | none =>
    have hs1 := startHTTPAndHTTPS_server env s env.apis h1
    have h2 : (startWSAndWSS env (startHTTPAndHTTPS env s env.apis).server env.apis).err = none := by
      simpa [OnStart, h1] using h
    have hs2 := startWSAndWSS_server env _ env.apis h2
    simp only [OnStart, h1, hs2]
    rw [hs1]

/-- C6: when `OnStart` on a freshly constructed server returns nil, httpListener
and wsListener are bound and open, httpsListener is bound exactly when the
TLS request address is not "off", wssListener exactly when the TLS persistent
address is not "off"; two listeners are bound when both are "off" and four
when neither is. -/
theorem OnStart_listeners_of_success (env : Env)
    (rpcAddr wsAddr rpcAddrSecure wsAddrSecure corsDomain certFile keyFile : String)
    (unlockedKeys : List String)
    (h : (OnStart env (NewServer rpcAddr wsAddr rpcAddrSecure wsAddrSecure corsDomain certFile
      keyFile unlockedKeys)).err = none) :
    (OnStart env (NewServer rpcAddr wsAddr rpcAddrSecure wsAddrSecure corsDomain certFile
      keyFile unlockedKeys)).server.httpListener = some { addr := rpcAddr, closed := false } ∧
    (OnStart env (NewServer rpcAddr wsAddr rpcAddrSecure wsAddrSecure corsDomain certFile
      keyFile unlockedKeys)).server.wsListener = some { addr := wsAddr, closed := false } ∧
    ((OnStart env (NewServer rpcAddr wsAddr rpcAddrSecure wsAddrSecure corsDomain certFile
      keyFile unlockedKeys)).server.httpsListener ≠ none ↔ rpcAddrSecure ≠ "off") ∧
    ((OnStart env (NewServer rpcAddr wsAddr rpcAddrSecure wsAddrSecure corsDomain certFile
      keyFile unlockedKeys)).server.wssListener ≠ none ↔ wsAddrSecure ≠ "off") ∧
    (rpcAddrSecure = "off" → wsAddrSecure = "off" →
      boundListeners (OnStart env (NewServer rpcAddr wsAddr rpcAddrSecure wsAddrSecure corsDomain
        certFile keyFile unlockedKeys)).server = 2) ∧
    (rpcAddrSecure ≠ "off" → wsAddrSecure ≠ "off" →
      boundListeners (OnStart env (NewServer rpcAddr wsAddr rpcAddrSecure wsAddrSecure corsDomain
        certFile keyFile unlockedKeys)).server = 4) := by
  rw [OnStart_server_of_success env _ h]
  by_cases ha : rpcAddrSecure = "off" <;> by_cases hb : wsAddrSecure = "off" <;>
    simp [NewServer, boundListeners, ha, hb]

theorem OnStart_listeners_of_success_witness :
    (OnStart (envOk [⟨"eth", 1⟩]) (NewServer "tcp://:8545" "tcp://:8546" "off" "tcp://:9546" ""
      "cert.pem" "key.pem" [])).err = none ∧
    (OnStart (envOk [⟨"eth", 1⟩]) (NewServer "tcp://:8545" "tcp://:8546" "off" "tcp://:9546" ""
      "cert.pem" "key.pem" [])).server.wsListener = some { addr := "tcp://:8546", closed := false } :=
  ⟨by decide, (OnStart_listeners_of_success (envOk [⟨"eth", 1⟩]) "tcp://:8545" "tcp://:8546" "off"
      "tcp://:9546" "" "cert.pem" "key.pem" [] (by decide)).2.1⟩

theorem startHTTPAndHTTPS_frame (env : Env) (s : Server) (apis : List API) :
    (startHTTPAndHTTPS env s apis).server.wsServer = s.wsServer ∧
    (startHTTPAndHTTPS env s apis).server.wsListener = s.wsListener ∧
    (startHTTPAndHTTPS env s apis).server.wssListener = s.wssListener := by
  simp only [startHTTPAndHTTPS, Listen]
  cases (registerApis env EngineSlot.httpServer newEngine apis).err <;>
  cases env.listenErr ListenerSlot.httpListener <;>
  cases env.listenErr ListenerSlot.httpsListener <;>
  by_cases ha : s.rpcHttpsAddr = "off" <;>
  simp [ha]

theorem startWSAndWSS_frame (env : Env) (s : Server) (apis : List API) :
    (startWSAndWSS env s apis).server.httpServer = s.httpServer ∧
    (startWSAndWSS env s apis).server.httpListener = s.httpListener ∧
    (startWSAndWSS env s apis).server.httpsListener = s.httpsListener ∧
    (startWSAndWSS env s apis).server.wsServer =
      some (registerApis env EngineSlot.wsServer newEngine apis).engine := by
  simp only [startWSAndWSS, Listen]
  cases (registerApis env EngineSlot.wsServer newEngine apis).err <;>
  cases env.listenErr ListenerSlot.wsListener <;>
  cases env.listenErr ListenerSlot.wssListener <;>
  by_cases ha : s.wssAddr = "off" <;>
  simp [ha]

theorem OnStart_engines_of_http_ok (env : Env) (s : Server)
    (hdet : ∀ regs a,
      env.registerErr EngineSlot.httpServer regs a = env.registerErr EngineSlot.wsServer regs a)
    (h1 : (startHTTPAndHTTPS env s env.apis).err = none) :
    (OnStart env s).server.httpServer = some { services := env.apis, run := true } ∧
    (OnStart env s).server.wsServer = some { services := env.apis, run := true } := by
  have hc := firstRegisterErr_congr env EngineSlot.httpServer EngineSlot.wsServer hdet env.apis []
  have hs1 := startHTTPAndHTTPS_server env s env.apis h1
  have hf := startWSAndWSS_frame env (startHTTPAndHTTPS env s env.apis).server env.apis
  have hr : firstRegisterErr env EngineSlot.httpServer [] env.apis = none := by
    rw [startHTTPAndHTTPS_err] at h1
    cases h : firstRegisterErr env EngineSlot.httpServer [] env.apis with
    | none => rfl
    | some err => simp [h] at h1
  have he := registerApis_engine env EngineSlot.wsServer newEngine env.apis (hc ▸ hr)
  simp only [newEngine, List.nil_append] at he
  simp only [OnStart, h1, hf.1, hf.2.2.2]
  rw [hs1]
  simp [newEngine, he]

theorem OnStart_no_wsServer_of_http_err (env : Env) (s : Server) (hfresh : s.wsServer = none)
    (h1 : (startHTTPAndHTTPS env s env.apis).err ≠ none) :
    (OnStart env s).server.wsServer = none := by
  cases h : (startHTTPAndHTTPS env s env.apis).err with
  | none => exact absurd h h1
  | some err => simp only [OnStart, h, (startHTTPAndHTTPS_frame env s env.apis).1, hfresh]

/-- C8: on a freshly constructed server the binding list is fetched exactly once
per `OnStart`, and whenever `OnStart` returns with both engines created, each
engine holds exactly the fetched bindings; assuming the outcome of a
registration depends only on the current registrations and the binding, not on
which engine it goes to. Both engines are created, each holding exactly the
fetched bindings, as soon as the request family started, whether or not the
persistent family then fails to bind; when the request family failed, wsServer
is not created. -/
theorem OnStart_engines_same_namespaces (env : Env)
    (rpcAddr wsAddr rpcAddrSecure wsAddrSecure corsDomain certFile keyFile : String)
    (unlockedKeys : List String)
    (hdet : ∀ regs a,
      env.registerErr EngineSlot.httpServer regs a = env.registerErr EngineSlot.wsServer regs a) :
    (OnStart env (NewServer rpcAddr wsAddr rpcAddrSecure wsAddrSecure corsDomain certFile
      keyFile unlockedKeys)).trace.count Event.GetAPIs = 1 ∧
    (∀ e1 e2,
      (OnStart env (NewServer rpcAddr wsAddr rpcAddrSecure wsAddrSecure corsDomain certFile
        keyFile unlockedKeys)).server.httpServer = some e1 →
      (OnStart env (NewServer rpcAddr wsAddr rpcAddrSecure wsAddrSecure corsDomain certFile
        keyFile unlockedKeys)).server.wsServer = some e2 →
      e1.services = env.apis ∧ e2.services = env.apis) ∧
    ((startHTTPAndHTTPS env (NewServer rpcAddr wsAddr rpcAddrSecure wsAddrSecure corsDomain
        certFile keyFile unlockedKeys) env.apis).err = none →
      (OnStart env (NewServer rpcAddr wsAddr rpcAddrSecure wsAddrSecure corsDomain certFile
        keyFile unlockedKeys)).server.httpServer = some { services := env.apis, run := true } ∧
      (OnStart env (NewServer rpcAddr wsAddr rpcAddrSecure wsAddrSecure corsDomain certFile
        keyFile unlockedKeys)).server.wsServer = some { services := env.apis, run := true }) ∧
    ((startHTTPAndHTTPS env (NewServer rpcAddr wsAddr rpcAddrSecure wsAddrSecure corsDomain
        certFile keyFile unlockedKeys) env.apis).err ≠ none →
      (OnStart env (NewServer rpcAddr wsAddr rpcAddrSecure wsAddrSecure corsDomain certFile
        keyFile unlockedKeys)).server.wsServer = none) := by
  generalize hs : NewServer rpcAddr wsAddr rpcAddrSecure wsAddrSecure
      corsDomain certFile keyFile unlockedKeys = s
  have hfresh : s.wsServer = none := by rw [← hs]; rfl
  refine ⟨?_, ?_, OnStart_engines_of_http_ok env s hdet,
    OnStart_no_wsServer_of_http_err env s hfresh⟩
  · rw [(OnStart_eq_runPlan env _).1]
    simp [List.count_cons, List.count_eq_zero.mpr (getAPIs_not_mem_runPlan env _ _)]
  · intro e1 e2 h3 h4
    cases h1 : (startHTTPAndHTTPS env s env.apis).err with
    | some err =>
      rw [OnStart_no_wsServer_of_http_err env s hfresh (by simp [h1])] at h4
      cases h4
    | none =>
      obtain ⟨g1, g2⟩ := OnStart_engines_of_http_ok env s hdet h1
      rw [g1] at h3
      rw [g2] at h4
      cases h3
      cases h4
      exact ⟨rfl, rfl⟩

theorem OnStart_engines_same_namespaces_witness :
    (∀ regs a,
      (envWsBindFails [⟨"eth", 1⟩, ⟨"net", 2⟩]).registerErr EngineSlot.httpServer regs a =
        (envWsBindFails [⟨"eth", 1⟩, ⟨"net", 2⟩]).registerErr EngineSlot.wsServer regs a) ∧
    (startHTTPAndHTTPS (envWsBindFails [⟨"eth", 1⟩, ⟨"net", 2⟩])
      (NewServer "tcp://:8545" "tcp://:8546" "off" "off" "" "" "" [])
      (envWsBindFails [⟨"eth", 1⟩, ⟨"net", 2⟩]).apis).err = none ∧
    (OnStart (envWsBindFails [⟨"eth", 1⟩, ⟨"net", 2⟩])
      (NewServer "tcp://:8545" "tcp://:8546" "off" "off" "" "" "" [])).err =
      some "listen tcp :8546: bind: permission denied" ∧
    (OnStart (envWsBindFails [⟨"eth", 1⟩, ⟨"net", 2⟩])
      (NewServer "tcp://:8545" "tcp://:8546" "off" "off" "" "" "" [])).trace.count
        Event.GetAPIs = 1 ∧
    (OnStart (envWsBindFails [⟨"eth", 1⟩, ⟨"net", 2⟩])
      (NewServer "tcp://:8545" "tcp://:8546" "off" "off" "" "" "" [])).server.httpServer =
      some { services := [⟨"eth", 1⟩, ⟨"net", 2⟩], run := true } ∧
    (OnStart (envWsBindFails [⟨"eth", 1⟩, ⟨"net", 2⟩])
      (NewServer "tcp://:8545" "tcp://:8546" "off" "off" "" "" "" [])).server.wsServer =
      some { services := [⟨"eth", 1⟩, ⟨"net", 2⟩], run := true } :=
  ⟨fun _ _ => rfl, by decide, by decide,
    (OnStart_engines_same_namespaces (envWsBindFails [⟨"eth", 1⟩, ⟨"net", 2⟩]) "tcp://:8545"
      "tcp://:8546" "off" "off" "" "" "" [] (fun _ _ => rfl)).1,
    (OnStart_engines_same_namespaces (envWsBindFails [⟨"eth", 1⟩, ⟨"net", 2⟩]) "tcp://:8545"
      "tcp://:8546" "off" "off" "" "" "" [] (fun _ _ => rfl)).2.2.1 (by decide)⟩

theorem OnStop_frame (s : Server) :
    (OnStop s).server.wsServer = s.wsServer ∧ (OnStop s).server.wsListener = s.wsListener ∧
    (OnStop s).server.httpsListener = s.httpsListener ∧
    (OnStop s).server.wssListener = s.wssListener := by
  rcases s with ⟨a1, a2, a3, a4, a5, a6, a7, hs, hl, ws, wl, hsl, wsl, k⟩
  cases hs <;> cases hl <;> cases ws <;> cases wl <;>
    simp [OnStop, stopHTTP, stopWS, StopResult.andThen, skip, callHttpServerStop,
      callHttpListenerClose]

theorem stopWS_frame (s : Server) :
    (stopWS s).server.wsServer = s.wsServer ∧ (stopWS s).server.wsListener = s.wsListener ∧
    ∀ c ∈ (stopWS s).calls, (∃ b, c = StopCall.Stop EngineSlot.httpServer b) ∨
      ∃ b, c = StopCall.Close ListenerSlot.httpListener b := by
  rcases s with ⟨a1, a2, a3, a4, a5, a6, a7, hs, hl, ws, wl, hsl, wsl, k⟩
  cases hs <;> cases hl <;> cases ws <;> cases wl <;>
    simp [stopWS, StopResult.andThen, skip, callHttpServerStop, callHttpListenerClose]

theorem stopHTTP_frame (s : Server) :
    (stopHTTP s).server.wsServer = s.wsServer ∧ (stopHTTP s).server.wsListener = s.wsListener ∧
    (stopHTTP s).panicked = false ∧
    ∀ c ∈ (stopHTTP s).calls, c = StopCall.Stop EngineSlot.httpServer false ∨
      c = StopCall.Close ListenerSlot.httpListener false := by
  rcases s with ⟨a1, a2, a3, a4, a5, a6, a7, hs, hl, ws, wl, hsl, wsl, k⟩
  cases hs <;> cases hl <;>
    simp [stopHTTP, StopResult.andThen, skip, callHttpServerStop, callHttpListenerClose]

theorem OnStop_state_idempotent (s : Server) :
    (OnStop (OnStop s).server).server = (OnStop s).server ∧
    (OnStop (OnStop s).server).panicked = (OnStop s).panicked := by
  rcases s with ⟨a1, a2, a3, a4, a5, a6, a7, hs, hl, ws, wl, hsl, wsl, k⟩
  cases hs <;> cases hl <;> cases ws <;> cases wl <;>
    simp [OnStop, stopHTTP, stopWS, StopResult.andThen, skip, callHttpServerStop,
      callHttpListenerClose, Engine.Stop, Listener.Close]

theorem filter_eq_nil_of_quiet {fam : EngineSlot} {t : List Event}
    (h : ∀ e ∈ t, e.isRegister fam = false) : t.filter (Event.isRegister fam) = [] := by
  rw [List.filter_eq_nil_iff]
  intro e he
  simp [h e he]

theorem SetUpThenServe.wrap {fam : EngineSlot} {apis : List API} {t X Y : List Event}
    (h : SetUpThenServe fam apis t) (hX : Quiet fam X) (hY : Quiet fam Y) :
    SetUpThenServe fam apis (X ++ t ++ Y) := by
  rcases h with h | ⟨A, rest, hd, rfl, hA, hreg, hb, hrest⟩
  · left
    intro e he
    simp only [List.mem_append] at he
    rcases he with (he | he) | he
    · exact (hX e he).2.2
    · exact h e he
    · exact (hY e he).2.2
  · right
    refine ⟨X ++ A, rest ++ Y, hd, by simp, ?_, ?_, ?_, ?_⟩
    · intro e he
      simp only [List.mem_append] at he
      rcases he with he | he
      · exact (hX e he).2.2
      · exact hA e he
    · rw [List.filter_append, filter_eq_nil_of_quiet (fun e he => (hX e he).1), hreg]
      rfl
    · simp [hb]
    · intro e he
      simp only [List.mem_append] at he
      rcases he with he | he
      · exact hrest e he
      · exact ⟨(hY e he).1, (hY e he).2.1, fun hc => absurd hc (hY e he).2.2⟩

theorem SetUpThenServe.sound {fam : EngineSlot} {apis : List API} {t pre post : List Event}
    {ev : Event} (h : SetUpThenServe fam apis t) (ht : t = pre ++ ev :: post)
    (hs : ev.servedEngine = some fam) :
    pre.filter (Event.isRegister fam) = okEvents fam apis ∧
    (∀ e ∈ post, e.isRegister fam = false) ∧
    (∃ hd, ev.handler = some hd ∧ handlerBuilt fam hd ∈ pre) ∧
    (∀ e ∈ post, e.isHandlerBuilt fam = false) := by
  rcases h with h | ⟨A, rest, hd, hA_eq, hA, hreg, hb, hrest⟩
  · exact absurd hs (h ev (by simp [ht]))
  · have key : ∃ mid, pre = A ++ mid ∧ rest = mid ++ ev :: post := by
      rw [ht] at hA_eq
      rcases List.append_eq_append_iff.mp hA_eq with ⟨c, hc1, hc2⟩ | ⟨a, ha1, ha2⟩
      · cases c with
        | nil =>
          refine ⟨[], ?_, ?_⟩
          · simpa using hc1.symm
          · simpa using hc2.symm
        | cons x c2 =>
          simp at hc2
          obtain ⟨rfl, -⟩ := hc2
          exact absurd hs (hA _ (by simp [hc1]))
      · exact ⟨a, ha1, ha2⟩
    obtain ⟨mid, hpre, hrest_eq⟩ := key
    have hmid : ∀ e ∈ mid, e ∈ rest := fun e he => by simp [hrest_eq, he]
    have hpost : ∀ e ∈ post, e ∈ rest := fun e he => by simp [hrest_eq, he]
    have hev : ev ∈ rest := by simp [hrest_eq]
    refine ⟨?_, fun e he => (hrest e (hpost e he)).1, ⟨hd, (hrest ev hev).2.2 hs, ?_⟩,
      fun e he => (hrest e (hpost e he)).2.1⟩
    · rw [hpre, List.filter_append, hreg,
        filter_eq_nil_of_quiet (fun e he => (hrest e (hmid e he)).1)]
      simp
    · simp [hpre, hb]


theorem registerEvents_forall (env : Env) (slot : EngineSlot) (Q : Event → Prop)
    (hQ : ∀ a err, Q (Event.RegisterName slot a err)) (l : List API) :
    ∀ regs, ∀ e ∈ registerEvents env slot regs l, Q e := by
  induction l with
  | nil => intro regs e he; simp [registerEvents] at he
  | cons a rest ih =>
    intro regs e he
    cases h : env.registerErr slot regs a with
    | some err =>
      simp [registerEvents, h] at he
      subst he
      exact hQ _ _
    | none =>
      simp [registerEvents, h] at he
      rcases he with rfl | he
      · exact hQ _ _
      · exact ih _ e he

theorem registerEvents_of_ok (env : Env) (slot : EngineSlot) (l : List API) :
    ∀ regs, firstRegisterErr env slot regs l = none →
      registerEvents env slot regs l = okEvents slot l := by
  induction l with
  | nil => intro regs _; rfl
  | cons a rest ih =>
    intro regs h
    cases h1 : env.registerErr slot regs a with
    | some err => simp [firstRegisterErr, h1] at h
    | none =>
      simp [firstRegisterErr, h1] at h
      simp [registerEvents, h1, ih _ h, okEvents]

theorem filter_okEvents (slot : EngineSlot) (l : List API) :
    (okEvents slot l).filter (Event.isRegister slot) = okEvents slot l := by
  rw [List.filter_eq_self]
  intro e he
  simp only [okEvents, List.mem_map] at he
  obtain ⟨a, -, rfl⟩ := he
  simp [Event.isRegister]

theorem okEvents_not_served (slot fam : EngineSlot) (l : List API) :
    ∀ e ∈ okEvents slot l, e.servedEngine ≠ some fam := by
  intro e he
  simp only [okEvents, List.mem_map] at he
  obtain ⟨a, -, rfl⟩ := he
  simp [Event.servedEngine, Event.handler]

theorem newCorsHandler_engine (srv : Handler) (origins : List String) :
    (newCorsHandler srv origins).engine = srv.engine := by
  unfold newCorsHandler
  split <;> rfl

theorem quiet_nil (fam : EngineSlot) : Quiet fam [] := by
  intro e he
  simp at he

theorem quiet_cons (fam : EngineSlot) (e : Event) (t : List Event) :
    Quiet fam (e :: t) ↔
      (e.isRegister fam = false ∧ e.isHandlerBuilt fam = false ∧ e.servedEngine ≠ some fam) ∧
        Quiet fam t := by
  simp [Quiet]

theorem quiet_append (fam : EngineSlot) (a b : List Event) :
    Quiet fam (a ++ b) ↔ Quiet fam a ∧ Quiet fam b := by
  simp only [Quiet, List.mem_append]
  constructor
  · intro h
    exact ⟨fun e he => h e (Or.inl he), fun e he => h e (Or.inr he)⟩
  · rintro ⟨h1, h2⟩ e (he | he)
    · exact h1 e he
    · exact h2 e he

theorem quiet_registerEvents (env : Env) (fam slot : EngineSlot) (hne : slot ≠ fam)
    (regs l : List API) : Quiet fam (registerEvents env slot regs l) :=
  registerEvents_forall env slot
    (fun e => e.isRegister fam = false ∧ e.isHandlerBuilt fam = false ∧
      e.servedEngine ≠ some fam)
    (by intro a err; simp [Event.isRegister, Event.isHandlerBuilt, Event.servedEngine,
          Event.handler, hne]) l regs

theorem startHTTPAndHTTPS_quiet (env : Env) (s : Server) (apis : List API) :
    Quiet EngineSlot.wsServer (startHTTPAndHTTPS env s apis).trace := by
  have hr := quiet_registerEvents env EngineSlot.wsServer EngineSlot.httpServer (by decide) [] apis
  simp only [startHTTPAndHTTPS, registerApis_trace, registerApis_err, Listen, newEngine]
  cases h1 : firstRegisterErr env EngineSlot.httpServer [] apis <;>
  cases h2 : env.listenErr ListenerSlot.httpListener <;>
  cases h3 : env.listenErr ListenerSlot.httpsListener <;>
  by_cases ha : s.rpcHttpsAddr = "off" <;>
  simp [h1, h2, h3, ha, quiet_cons, quiet_append, quiet_nil, hr, Event.isRegister,
    Event.isHandlerBuilt, Event.servedEngine, Event.handler, newCorsHandler_engine,
    Handler.engine]

theorem startWSAndWSS_quiet (env : Env) (s : Server) (apis : List API) :
    Quiet EngineSlot.httpServer (startWSAndWSS env s apis).trace := by
  have hr := quiet_registerEvents env EngineSlot.httpServer EngineSlot.wsServer (by decide) [] apis
  simp only [startWSAndWSS, registerApis_trace, registerApis_err, Listen, newEngine]
  cases h1 : firstRegisterErr env EngineSlot.wsServer [] apis <;>
  cases h2 : env.listenErr ListenerSlot.wsListener <;>
  cases h3 : env.listenErr ListenerSlot.wssListener <;>
  by_cases ha : s.wssAddr = "off" <;>
  simp [h1, h2, h3, ha, quiet_cons, quiet_append, quiet_nil, hr, Event.isRegister,
    Event.isHandlerBuilt, Event.servedEngine, Event.handler, Handler.engine]

theorem registerEvents_not_served (env : Env) (slot fam : EngineSlot) (regs l : List API) :
    ∀ e ∈ registerEvents env slot regs l, e.servedEngine ≠ some fam :=
  registerEvents_forall env slot (fun e => e.servedEngine ≠ some fam)
    (by intro a err; simp [Event.servedEngine, Event.handler]) l regs

theorem startHTTPAndHTTPS_shape (env : Env) (s : Server) (apis : List API) :
    SetUpThenServe EngineSlot.httpServer apis (startHTTPAndHTTPS env s apis).trace := by
  have hns := registerEvents_not_served env EngineSlot.httpServer EngineSlot.httpServer [] apis
  simp only [startHTTPAndHTTPS, registerApis_trace, registerApis_err, Listen, newEngine]
  cases h1 : firstRegisterErr env EngineSlot.httpServer [] apis with
  | some err =>
    left
    intro e he
    simp at he
    rcases he with rfl | he
    · simp [Event.servedEngine, Event.handler]
    · exact hns e he
  | none =>
    rw [registerEvents_of_ok env EngineSlot.httpServer apis [] h1]
    cases h2 : env.listenErr ListenerSlot.httpListener with
    | some err =>
      left
      intro e he
      simp at he
      rcases he with rfl | he | rfl | rfl
      · simp [Event.servedEngine, Event.handler]
      · exact okEvents_not_served _ _ _ e he
      · simp [Event.servedEngine, Event.handler]
      · simp [Event.servedEngine, Event.handler]
    | none =>
      right
      refine ⟨Event.NewServer EngineSlot.httpServer :: okEvents EngineSlot.httpServer apis ++
        [Event.newCorsHandler (httpHandler s),
         Event.Listen ListenerSlot.httpListener s.rpcAddr none], ?_, httpHandler s, ?_, ?_, ?_, ?_, ?_⟩
      · exact (Event.Serve ListenerSlot.httpListener (httpHandler s)) ::
          (if s.rpcHttpsAddr = "off" then []
           else match env.listenErr ListenerSlot.httpsListener with
             | some err => [Event.Listen ListenerSlot.httpsListener s.rpcHttpsAddr (some err)]
             | none => [Event.Listen ListenerSlot.httpsListener s.rpcHttpsAddr none,
                 Event.ServeTLS ListenerSlot.httpsListener (httpHandler s) s.certFile s.keyFile])
      · cases h3 : env.listenErr ListenerSlot.httpsListener <;>
        by_cases ha : s.rpcHttpsAddr = "off" <;>
        simp [h3, ha, httpHandler]
      · intro e he
        simp at he
        rcases he with rfl | he | rfl | rfl
        · simp [Event.servedEngine, Event.handler]
        · exact okEvents_not_served _ _ _ e he
        · simp [Event.servedEngine, Event.handler]
        · simp [Event.servedEngine, Event.handler]
      · simp [List.filter_cons, List.filter_append, filter_okEvents, Event.isRegister]
      · simp [handlerBuilt]
      · cases h3 : env.listenErr ListenerSlot.httpsListener <;>
        by_cases ha : s.rpcHttpsAddr = "off" <;>
        simp [h3, ha, Event.isRegister, Event.isHandlerBuilt, Event.handler, Event.servedEngine]

theorem startWSAndWSS_shape (env : Env) (s : Server) (apis : List API) :
    SetUpThenServe EngineSlot.wsServer apis (startWSAndWSS env s apis).trace := by
  have hns := registerEvents_not_served env EngineSlot.wsServer EngineSlot.wsServer [] apis
  simp only [startWSAndWSS, registerApis_trace, registerApis_err, Listen, newEngine]
  cases h1 : firstRegisterErr env EngineSlot.wsServer [] apis with
  | some err =>
    left
    intro e he
    simp at he
    rcases he with rfl | he
    · simp [Event.servedEngine, Event.handler]
    · exact hns e he
  | none =>
    rw [registerEvents_of_ok env EngineSlot.wsServer apis [] h1]
    cases h2 : env.listenErr ListenerSlot.wsListener with
    | some err =>
      left
      intro e he
      simp at he
      rcases he with rfl | he | rfl | rfl
      · simp [Event.servedEngine, Event.handler]
      · exact okEvents_not_served _ _ _ e he
      · simp [Event.servedEngine, Event.handler]
      · simp [Event.servedEngine, Event.handler]
    | none =>
      right
      refine ⟨Event.NewServer EngineSlot.wsServer :: okEvents EngineSlot.wsServer apis ++
        [Event.WebsocketHandler (wsHandler s),
         Event.Listen ListenerSlot.wsListener s.wsAddr none], ?_, wsHandler s, ?_, ?_, ?_, ?_, ?_⟩
      · exact (Event.Serve ListenerSlot.wsListener (wsHandler s)) ::
          (if s.wssAddr = "off" then []
           else match env.listenErr ListenerSlot.wssListener with
             | some err => [Event.Listen ListenerSlot.wssListener s.wssAddr (some err)]
             | none => [Event.Listen ListenerSlot.wssListener s.wssAddr none,
                 Event.ServeTLS ListenerSlot.wssListener (wsHandler s) s.certFile s.keyFile])
      · cases h3 : env.listenErr ListenerSlot.wssListener <;>
        by_cases ha : s.wssAddr = "off" <;>
        simp [h3, ha, wsHandler]
      · intro e he
        simp at he
        rcases he with rfl | he | rfl | rfl
        · simp [Event.servedEngine, Event.handler]
        · exact okEvents_not_served _ _ _ e he
        · simp [Event.servedEngine, Event.handler]
        · simp [Event.servedEngine, Event.handler]
      · simp [List.filter_cons, List.filter_append, filter_okEvents, Event.isRegister]
      · simp [handlerBuilt]
      · cases h3 : env.listenErr ListenerSlot.wssListener <;>
        by_cases ha : s.wssAddr = "off" <;>
        simp [h3, ha, Event.isRegister, Event.isHandlerBuilt, Event.handler, Event.servedEngine]

theorem OnStart_shape (env : Env) (s : Server) (fam : EngineSlot) :
    SetUpThenServe fam env.apis (OnStart env s).trace := by
  have hG : Quiet fam [Event.GetAPIs] := by
    rw [quiet_cons]
    exact ⟨by simp [Event.isRegister, Event.isHandlerBuilt, Event.servedEngine, Event.handler],
      quiet_nil fam⟩
  cases h1 : (startHTTPAndHTTPS env s env.apis).err with
  | some err =>
    simp only [OnStart, h1]
    cases fam with
    | httpServer =>
      have := (startHTTPAndHTTPS_shape env s env.apis).wrap hG (quiet_nil _)
      simpa using this
    | wsServer =>
      left
      intro e he
      have hq := (quiet_append _ _ _).mpr ⟨hG, startHTTPAndHTTPS_quiet env s env.apis⟩
      exact (hq e (by simpa using he)).2.2
  | none =>
    simp only [OnStart, h1]
    cases fam with
    | httpServer =>
      have := (startHTTPAndHTTPS_shape env s env.apis).wrap hG
        (startWSAndWSS_quiet env (startHTTPAndHTTPS env s env.apis).server env.apis)
      simpa using this
    | wsServer =>
      have := (startWSAndWSS_shape env (startHTTPAndHTTPS env s env.apis).server env.apis).wrap
        ((quiet_append _ _ _).mpr ⟨hG, startHTTPAndHTTPS_quiet env s env.apis⟩) (quiet_nil _)
      simpa using this

/-- C10: in the effects of `OnStart`, whenever a serving task is launched with a
handler of the engine `fam`, the registrations into that engine performed before
the launch are exactly the fetched bindings, all accepted and in list order; the
handler the task is launched with was built before the launch; and neither a
registration into that engine nor the building of its handler comes after. -/
theorem OnStart_setup_before_serve (env : Env) (s : Server) (fam : EngineSlot)
    (pre post : List Event) (ev : Event)
    (ht : (OnStart env s).trace = pre ++ ev :: post) (hs : ev.servedEngine = some fam) :
    pre.filter (Event.isRegister fam) = okEvents fam env.apis ∧
    (∀ e ∈ post, e.isRegister fam = false) ∧
    (∃ hd, ev.handler = some hd ∧ handlerBuilt fam hd ∈ pre) ∧
    (∀ e ∈ post, e.isHandlerBuilt fam = false) :=
  (OnStart_shape env s fam).sound ht hs

theorem OnStart_setup_before_serve_witness :
    (OnStart (envOk [⟨"eth", 1⟩]) plainServer).trace =
      [Event.GetAPIs, Event.NewServer EngineSlot.httpServer,
        Event.RegisterName EngineSlot.httpServer ⟨"eth", 1⟩ none,
        Event.newCorsHandler (httpHandler plainServer),
        Event.Listen ListenerSlot.httpListener "tcp://:8545" none] ++
      Event.Serve ListenerSlot.httpListener (httpHandler plainServer) ::
      [Event.NewServer EngineSlot.wsServer,
        Event.RegisterName EngineSlot.wsServer ⟨"eth", 1⟩ none,
        Event.WebsocketHandler (wsHandler plainServer),
        Event.Listen ListenerSlot.wsListener "tcp://:8546" none,
        Event.Serve ListenerSlot.wsListener (wsHandler plainServer)] ∧
    (Event.Serve ListenerSlot.httpListener (httpHandler plainServer)).servedEngine =
      some EngineSlot.httpServer ∧
    [Event.GetAPIs, Event.NewServer EngineSlot.httpServer,
        Event.RegisterName EngineSlot.httpServer ⟨"eth", 1⟩ none,
        Event.newCorsHandler (httpHandler plainServer),
        Event.Listen ListenerSlot.httpListener "tcp://:8545" none].filter
      (Event.isRegister EngineSlot.httpServer) =
      okEvents EngineSlot.httpServer (envOk [⟨"eth", 1⟩]).apis :=
  ⟨by decide, by decide,
    (OnStart_setup_before_serve (envOk [⟨"eth", 1⟩]) plainServer EngineSlot.httpServer
      [Event.GetAPIs, Event.NewServer EngineSlot.httpServer,
        Event.RegisterName EngineSlot.httpServer ⟨"eth", 1⟩ none,
        Event.newCorsHandler (httpHandler plainServer),
        Event.Listen ListenerSlot.httpListener "tcp://:8545" none]
      [Event.NewServer EngineSlot.wsServer,
        Event.RegisterName EngineSlot.wsServer ⟨"eth", 1⟩ none,
        Event.WebsocketHandler (wsHandler plainServer),
        Event.Listen ListenerSlot.wsListener "tcp://:8546" none,
        Event.Serve ListenerSlot.wsListener (wsHandler plainServer)]
      (Event.Serve ListenerSlot.httpListener (httpHandler plainServer))
      (by decide) (by decide)).1⟩

theorem splitChars_ne_nil (sep : Char) (cs : List Char) : splitChars sep cs ≠ [] := by
  induction cs with
  | nil => simp [splitChars]
  | cons c rest ih =>
    unfold splitChars
    split
    · simp
    · split <;> simp

theorem stringsSplit_ne_nil (s : String) (sep : Char) : stringsSplit s sep ≠ [] := by
  simp [stringsSplit, splitChars_ne_nil]

theorem stringsSplit_length_pos (s : String) (sep : Char) : (stringsSplit s sep).length ≠ 0 := by
  simp [stringsSplit_ne_nil]

/-- Whatever the configured origin list, the request handler is the CORS
wrapper around the engine: the branch of `newCorsHandler` that returns the
engine itself is never taken from `startHTTPAndHTTPS`. -/
theorem httpHandler_always_wrapped (s : Server) :
    httpHandler s =
      Handler.cors
        { AllowedOrigins := stringsSplit s.corsDomain ','
          AllowedMethods := ["POST", "GET"]
          AllowedHeaders := ["*"]
          MaxAge := 600 }
        (Handler.rpcServer EngineSlot.httpServer) := by
  simp [httpHandler, newCorsHandler, stringsSplit_ne_nil]

/-- Whatever the configuration, after a successful `OnStart` the listener in
wsListener is still open when `OnStop` is done. -/
theorem OnStop_after_OnStart_wsListener (env : Env) (s : Server)
    (h : (OnStart env s).err = none) :
    (OnStop (OnStart env s).server).server.wsListener =
      some { addr := s.wsAddr, closed := false } := by
  rw [(OnStop_frame _).2.1, OnStart_server_of_success env s h]

/-- C1 (the code at the failing input): after a successful `OnStart` with both
TLS addresses "off", `OnStop` returns without a panic and wsListener is still
open; with both TLS addresses set, wsListener, httpsListener and wssListener
are all still open after `OnStop`. -/
theorem OnStop_leaves_listeners_open :
    (OnStart (envOk [⟨"eth", 1⟩]) plainServer).err = none ∧
    (OnStop (OnStart (envOk [⟨"eth", 1⟩]) plainServer).server).panicked = false ∧
    (OnStop (OnStart (envOk [⟨"eth", 1⟩]) plainServer).server).server.wsListener =
      some { addr := "tcp://:8546", closed := false } ∧
    (OnStart (envOk [⟨"eth", 1⟩]) tlsServer).err = none ∧
    (OnStop (OnStart (envOk [⟨"eth", 1⟩]) tlsServer).server).server.httpListener =
      some { addr := "tcp://:8545", closed := true } ∧
    (OnStop (OnStart (envOk [⟨"eth", 1⟩]) tlsServer).server).server.wsListener =
      some { addr := "tcp://:8546", closed := false } ∧
    (OnStop (OnStart (envOk [⟨"eth", 1⟩]) tlsServer).server).server.httpsListener =
      some { addr := "tcp://:9545", closed := false } ∧
    (OnStop (OnStart (envOk [⟨"eth", 1⟩]) tlsServer).server).server.wssListener =
      some { addr := "tcp://:9546", closed := false } := by
  decide

/-- C2 (the code at the failing input): on the server left by a successful
`OnStart`, where wsServer and wsListener both exist, `stopWS` calls Stop on
httpServer and Close on httpListener and nothing else; wsServer is still
running and wsListener still open afterwards, while httpServer is stopped and
httpListener closed. -/
theorem stopWS_acts_on_http_handles :
    startedServer.wsServer = some { services := [⟨"eth", 1⟩], run := true } ∧
    startedServer.wsListener = some { addr := "tcp://:8546", closed := false } ∧
    (stopWS startedServer).calls =
      [StopCall.Stop EngineSlot.httpServer false, StopCall.Close ListenerSlot.httpListener false] ∧
    (stopWS startedServer).server.wsServer = some { services := [⟨"eth", 1⟩], run := true } ∧
    (stopWS startedServer).server.wsListener = some { addr := "tcp://:8546", closed := false } ∧
    (stopWS startedServer).server.httpServer = some { services := [⟨"eth", 1⟩], run := false } ∧
    (stopWS startedServer).server.httpListener =
      some { addr := "tcp://:8545", closed := true } := by
  decide

/-- C3 (the code at the failing input): a successful `OnStart` followed by an
`OnStart` whose plain request bind fails leaves httpListener nil and wsListener
open; the `OnStop` that follows calls Close through the nil httpListener. -/
theorem OnStop_closes_nil_listener :
    runCalls plainServer
      [Call.OnStart (envOk [⟨"eth", 1⟩]), Call.OnStart (envHttpBindFails [⟨"eth", 1⟩])] =
      some restartedServer ∧
    restartedServer.httpListener = none ∧
    restartedServer.wsListener = some { addr := "tcp://:8546", closed := false } ∧
    (OnStop restartedServer).calls =
      [StopCall.Stop EngineSlot.httpServer false, StopCall.Stop EngineSlot.httpServer false,
        StopCall.Close ListenerSlot.httpListener true] ∧
    (OnStop restartedServer).panicked = true ∧
    runCalls plainServer
      [Call.OnStart (envOk [⟨"eth", 1⟩]), Call.OnStart (envHttpBindFails [⟨"eth", 1⟩]),
        Call.OnStop] = none := by
  decide

/-- C4 (the code at the failing input): with corsDomain = "" the origin list
handed to `newCorsHandler` is the one-element list [""], and the handler that
`startHTTPAndHTTPS` passes to Serve and ServeTLS is the CORS wrapper with that
origin list around the engine, not the engine itself. -/
theorem empty_corsDomain_is_wrapped :
    stringsSplit "" ',' = [""] ∧
    (startHTTPAndHTTPS (envOk [⟨"eth", 1⟩]) tlsServer [⟨"eth", 1⟩]).trace =
      [Event.NewServer EngineSlot.httpServer,
        Event.RegisterName EngineSlot.httpServer ⟨"eth", 1⟩ none,
        Event.newCorsHandler
          (Handler.cors
            { AllowedOrigins := [""], AllowedMethods := ["POST", "GET"],
              AllowedHeaders := ["*"], MaxAge := 600 }
            (Handler.rpcServer EngineSlot.httpServer)),
        Event.Listen ListenerSlot.httpListener "tcp://:8545" none,
        Event.Serve ListenerSlot.httpListener
          (Handler.cors
            { AllowedOrigins := [""], AllowedMethods := ["POST", "GET"],
              AllowedHeaders := ["*"], MaxAge := 600 }
            (Handler.rpcServer EngineSlot.httpServer)),
        Event.Listen ListenerSlot.httpsListener "tcp://:9545" none,
        Event.ServeTLS ListenerSlot.httpsListener
          (Handler.cors
            { AllowedOrigins := [""], AllowedMethods := ["POST", "GET"],
              AllowedHeaders := ["*"], MaxAge := 600 }
            (Handler.rpcServer EngineSlot.httpServer))
          "cert.pem" "key.pem"] ∧
    Handler.cors
        { AllowedOrigins := [""], AllowedMethods := ["POST", "GET"],
          AllowedHeaders := ["*"], MaxAge := 600 }
        (Handler.rpcServer EngineSlot.httpServer) ≠
      Handler.rpcServer EngineSlot.httpServer := by
  decide

/-- C9 (the code at the failing input): on the server left by a successful
`OnStart` followed by an `OnStart` whose plain request bind fails, `OnStop`
panics, and a second `OnStop` on the state it leaves panics again. -/
theorem OnStop_twice_panics :
    (OnStop restartedServer).panicked = true ∧
    (OnStop (OnStop restartedServer).server).panicked = true := by
  decide

end Rpc
